import Mathlib

/-!
Verification of the Things MCP server's URL-building and dispatch layer.

The definitions below are a shallow embedding of `src/things-client.js`,
`src/tools/batch-tools.js`, `src/tools/add-tools.js` and
`src/utils/validation.js`.  JavaScript strings are Lean `String`s,
`undefined`/`null`-able object fields are `Option`s, JS exceptions are the
`.error` branch of `Except String`, and JS object literals whose keys are
inserted in a fixed program order are association lists in that order.
-/

namespace ThingsMCP

/-- A JavaScript value as it can occur in a Things URL parameter mapping:
a string, a boolean (`completeTodo` passes `completed: true`), `null`, or
`undefined`. -/
inductive JValue where
  | vstr (s : String)
  | vbool (b : Bool)
  | vnull
  | vundef
deriving DecidableEq, Repr

/-- JavaScript truthiness of an optional string (`undefined` and the empty
string are falsy, every other string is truthy). -/
def jsTruthy : Option String → Bool
  | some s => !(s == "")
  | none => false

/-- The whitespace class removed by JavaScript's `String.prototype.trim`
(restricted to the ASCII range, which covers every string these claims
touch). -/
def jsIsWhitespace (c : Char) : Bool :=
  c == ' ' || c == '\t' || c == '\n' || c == '\r' || c == '\x0b' || c == '\x0c'

/-- Character-list worker for `jsTrim`. -/
def trimChars (cs : List Char) : List Char :=
  ((cs.dropWhile jsIsWhitespace).reverse.dropWhile jsIsWhitespace).reverse

/-- Model of `String.prototype.trim`: strip leading and trailing
whitespace. -/
def jsTrim (s : String) : String := String.mk (trimChars s.data)

/-- ASCII lowercasing of one character, as `String.prototype.toLowerCase`
acts on the ASCII range. -/
def asciiLower (c : Char) : Char :=
  if 'A' ≤ c ∧ c ≤ 'Z' then Char.ofNat (c.toNat + 32) else c

/-- Model of `String.prototype.toLowerCase` (ASCII range). -/
def jsToLower (s : String) : String := String.mk (s.data.map asciiLower)

/-- The characters `encodeURIComponent` leaves unescaped:
`A–Z a–z 0–9 - _ . ! ~ * ' ( )`. -/
def uriUnreserved (c : Char) : Bool :=
  c.isAlpha || c.isDigit || c == '-' || c == '_' || c == '.' || c == '!' ||
  c == '~' || c == '*' || c == '\'' || c == '(' || c == ')'

/-- Uppercase hexadecimal digit, as used by `encodeURIComponent`. -/
def hexDigitU (n : Nat) : Char :=
  if n < 10 then Char.ofNat (48 + n) else Char.ofNat (55 + n)

/-- UTF-8 byte sequence of a single character (JavaScript percent-encodes
the UTF-8 bytes of non-ASCII characters). -/
def utf8Bytes (c : Char) : List Nat :=
  let n := c.toNat
  if n < 0x80 then [n]
  else if n < 0x800 then [0xC0 + n / 64, 0x80 + n % 64]
  else if n < 0x10000 then [0xE0 + n / 4096, 0x80 + (n / 64) % 64, 0x80 + n % 64]
  else [0xF0 + n / 262144, 0x80 + (n / 4096) % 64, 0x80 + (n / 64) % 64, 0x80 + n % 64]

/-- Percent-escape of one byte: `%XX` with uppercase hex digits. -/
def percentByte (b : Nat) : String :=
  "%" ++ String.mk [hexDigitU (b / 16), hexDigitU (b % 16)]

/-- Concatenation of a list of strings. -/
def concatStr : List String → String
  | [] => ""
  | s :: rest => s ++ concatStr rest

/-- Encoding of a single character under `encodeURIComponent`. -/
def encodeChar (c : Char) : String :=
  if uriUnreserved c then String.mk [c]
  else concatStr ((utf8Bytes c).map percentByte)

/-- Character-list worker for `encodeURIComponent`. -/
def encodeChars : List Char → String
  | [] => ""
  | c :: cs => encodeChar c ++ encodeChars cs

/-- Model of JavaScript's `encodeURIComponent`: RFC 3986 component
encoding, escaping a space as `%20` (never `+`) and escaping `+` as `%2B`. -/
def encodeURIComponent (s : String) : String :=
  encodeChars s.data

/-- Numeric value of a hexadecimal digit character. -/
def hexVal (c : Char) : Nat :=
  if '0' ≤ c ∧ c ≤ '9' then c.toNat - 48
  else if 'A' ≤ c ∧ c ≤ 'F' then c.toNat - 55
  else if 'a' ≤ c ∧ c ≤ 'f' then c.toNat - 87
  else 0

/-- Byte sequence denoted by a percent-encoded character sequence: each
`%XX` triple contributes the byte `XX`, every other character contributes
its code point (the characters appearing here are ASCII). -/
def pctBytes : List Char → List Nat
  | '%' :: h :: l :: rest => (16 * hexVal h + hexVal l) :: pctBytes rest
  | c :: rest => c.toNat :: pctBytes rest
  | [] => []

/-- UTF-8 decoding of a byte sequence, as `decodeURIComponent` interprets
the percent-decoded bytes. -/
def utf8Decode : List Nat → List Char
  | [] => []
  | b :: rest =>
    if b < 0x80 then Char.ofNat b :: utf8Decode rest
    else if b < 0xE0 then
      match rest with
      | b2 :: rest2 => Char.ofNat ((b - 0xC0) * 64 + (b2 - 0x80)) :: utf8Decode rest2
      | [] => []
    else if b < 0xF0 then
      match rest with
      | b2 :: b3 :: rest3 =>
          Char.ofNat ((b - 0xE0) * 4096 + (b2 - 0x80) * 64 + (b3 - 0x80)) :: utf8Decode rest3
      | _ => []
    else
      match rest with
      | b2 :: b3 :: b4 :: rest4 =>
          Char.ofNat ((b - 0xF0) * 262144 + (b2 - 0x80) * 4096 + (b3 - 0x80) * 64 + (b4 - 0x80))
            :: utf8Decode rest4
      | _ => []

/-- Model of `decodeURIComponent` restricted to well-formed inputs:
percent-decode into bytes, then UTF-8 decode. -/
def percentDecode (s : String) : String :=
  String.mk (utf8Decode (pctBytes s.data))

/-- Model of `Array.prototype.join('&')`, used on the query parts in
`buildUrl`. -/
def joinAmp : List String → String
  | [] => ""
  | [p] => p
  | p :: q :: rest => p ++ "&" ++ joinAmp (q :: rest)

/-- Model of `Array.prototype.join('\n')`, used on `projectData.todos` in
`addProject`. -/
def joinNl : List String → String
  | [] => ""
  | [p] => p
  | p :: q :: rest => p ++ "\n" ++ joinNl (q :: rest)

/-- Model of `Array.prototype.join(', ')`, used on `validListIds` in
`validateListId`. -/
def joinCommaSp : List String → String
  | [] => ""
  | [p] => p
  | p :: q :: rest => p ++ ", " ++ joinCommaSp (q :: rest)

/-- The query part contributed by one `params` entry in
`ThingsClient.buildUrl` (things-client.js:86-91): `undefined` and `null`
values are skipped, every other value is stringified and both key and
value are passed through `encodeURIComponent`. -/
def paramPart (k : String) (v : JValue) : Option String :=
  match v with
  | .vundef => none
  | .vnull => none
  | .vstr s => some (encodeURIComponent k ++ "=" ++ encodeURIComponent s)
  | .vbool b => some (encodeURIComponent k ++ "=" ++ encodeURIComponent (cond b "true" "false"))

/-- The query parts produced by the `Object.entries(params).forEach` loop
of `buildUrl`, in insertion order. -/
def paramParts (params : List (String × JValue)) : List String :=
  params.filterMap (fun kv => paramPart kv.1 kv.2)

/-- The credential query part of `buildUrl` (things-client.js:80-82):
pushed first, only when the configured token is truthy and the command is
not `show`. -/
def authParts : Option String → String → List String
  | some tok, command =>
      if !(tok == "") && !(command == "show") then
        ["auth-token=" ++ encodeURIComponent tok]
      else []
  | none, _ => []

/-- The complete ordered list of query parts built by `buildUrl`:
credential part (when applicable) first, then the parameter parts in
mapping order. -/
def queryParts (authToken : Option String) (command : String)
    (params : List (String × JValue)) : List String :=
  authParts authToken command ++ paramParts params

/-- The search string assigned by `buildUrl` (things-client.js:94-96):
empty when there are no query parts, otherwise `?` followed by the
`&`-joined parts. -/
def renderQuery (parts : List String) : String :=
  if parts.isEmpty then "" else "?" ++ joinAmp parts

/-- A command string made only of ASCII letters, digits and `-` (or the
empty string).  On this class of inputs the WHATWG URL constructor used by
`buildUrl` (`new URL(command, 'things:///')`) never throws and resolves to
the plain concatenation `things:///` ++ command (the empty command
resolves to the base URL itself), and the subsequent `url.search` setter
leaves the already percent-encoded query parts unchanged.  Every command
the client passes (`show`, `add`, `add-project`, `update`, `search`) is in
this class. -/
def SafeCommand (command : String) : Prop :=
  ∀ c ∈ command.data, (c.isAlpha || c.isDigit || c == '-') = true

/-- Model of `ThingsClient.buildUrl` (things-client.js:70-102).  The
authentication token is the value of `THINGS_AUTHENTICATION_TOKEN` read at
construction (`none` when unset). -/
def buildUrl (authToken : Option String) (command : String)
    (params : List (String × JValue)) : String :=
  "things:///" ++ command ++ renderQuery (queryParts authToken command params)

/-- Model of the `try`/`catch` wrapper of `buildUrl`: the only throwing
sub-operation is the URL constructor, which does not throw for any
`SafeCommand` command (including the empty string, which resolves to the
base `things:///`), so the method returns the built URL and the `catch`
branch (`Failed to build Things URL: ...`) is unreachable on this
domain. -/
def buildUrlE (authToken : Option String) (command : String)
    (params : List (String × JValue)) : Except String String :=
  .ok (buildUrl authToken command params)

/-- Input object of `ThingsClient.addTodo` (things-client.js:178-199).
An absent optional field is `none`. -/
structure TodoData where
  title : String
  notes : Option String := none
  when : Option String := none
  deadline : Option String := none
  tags : Option String := none
  checklist : Option String := none
  list : Option String := none
deriving DecidableEq, Repr

/-- The `if (todoData.X) params.X = todoData.X` pattern of the creation
methods: the field enters the mapping only when its value is truthy
(present and non-empty). -/
def truthyField (k : String) (v : Option String) : List (String × JValue) :=
  match v with
  | some s => if s == "" then [] else [(k, .vstr s)]
  | none => []

/-- The `if (updateData.X !== undefined) params.X = updateData.X` pattern
of the update methods: the field enters the mapping whenever it is
defined, including when it is the empty string. -/
def definedField (k : String) (v : Option String) : List (String × JValue) :=
  match v with
  | some s => [(k, .vstr s)]
  | none => []

/-- Parameter mapping built by `ThingsClient.addTodo`
(things-client.js:178-199): throws when the title is falsy, otherwise
starts from `{title}` and appends each optional field only when truthy. -/
def addTodoParams (d : TodoData) : Except String (List (String × JValue)) :=
  if d.title == "" then .error "Todo title is required"
  else .ok ([("title", JValue.vstr d.title)]
    ++ truthyField "notes" d.notes
    ++ truthyField "when" d.when
    ++ truthyField "deadline" d.deadline
    ++ truthyField "tags" d.tags
    ++ truthyField "checklist" d.checklist
    ++ truthyField "list" d.list)

/-- Input object of `ThingsClient.addProject` (things-client.js:217-241).
`todos` is `some l` when an array was supplied (any array, empty
included, is truthy in JS). -/
structure ProjectData where
  title : String
  notes : Option String := none
  when : Option String := none
  deadline : Option String := none
  tags : Option String := none
  area : Option String := none
  todos : Option (List String) := none
deriving DecidableEq, Repr

/-- Parameter mapping built by `ThingsClient.addProject`
(things-client.js:217-241): throws when the title is falsy; optional
string fields are added when truthy; a supplied `todos` array is joined
with `'\n'` into a single string parameter. -/
def addProjectParams (d : ProjectData) : Except String (List (String × JValue)) :=
  if d.title == "" then .error "Project title is required"
  else .ok ([("title", JValue.vstr d.title)]
    ++ truthyField "notes" d.notes
    ++ truthyField "when" d.when
    ++ truthyField "deadline" d.deadline
    ++ truthyField "tags" d.tags
    ++ truthyField "area" d.area
    ++ (match d.todos with
        | some l => [("todos", JValue.vstr (joinNl l))]
        | none => []))

/-- Input object of `ThingsClient.updateTodo` (things-client.js:278-300). -/
structure UpdateData where
  id : String
  title : Option String := none
  notes : Option String := none
  when : Option String := none
  deadline : Option String := none
  tags : Option String := none
  checklist : Option String := none
  list : Option String := none
deriving DecidableEq, Repr

/-- Parameter mapping built by `ThingsClient.updateTodo`
(things-client.js:278-300): throws when the id is falsy; every optional
field is added whenever it is not `undefined` — an explicitly supplied
empty string is kept, distinguishing "clear this field" from "leave it
alone". -/
def updateTodoParams (u : UpdateData) : Except String (List (String × JValue)) :=
  if u.id == "" then .error "Todo ID is required for updates"
  else .ok ([("id", JValue.vstr u.id)]
    ++ definedField "title" u.title
    ++ definedField "notes" u.notes
    ++ definedField "when" u.when
    ++ definedField "deadline" u.deadline
    ++ definedField "tags" u.tags
    ++ definedField "checklist" u.checklist
    ++ definedField "list" u.list)

/-- Parameter mapping built by `ThingsClient.completeTodo`
(things-client.js:350-363): `{id, completed: true}` after a falsy-id
check. -/
def completeTodoParams (id : String) : Except String (List (String × JValue)) :=
  if id == "" then .error "Todo ID is required for completion"
  else .ok [("id", JValue.vstr id), ("completed", JValue.vbool true)]

/-- Parameter mapping passed by `ThingsClient.showList`
(things-client.js:145-147): the identifier is forwarded unvalidated to
`executeCommand('show', { id })`. -/
def showListParams (id : String) : List (String × JValue) :=
  [("id", JValue.vstr id)]

/-- URL built and dispatched by `ThingsClient.showList`: `showList`
performs no validation of the identifier, so the URL is always built and
handed to the OS open call. -/
def showListUrl (authToken : Option String) (id : String) : String :=
  buildUrl authToken "show" (showListParams id)

/-- The fixed list-identifier set of `validateListId`
(validation.js:301-304). -/
def validListIds : List String :=
  ["today", "inbox", "upcoming", "anytime", "someday",
   "projects", "areas", "logbook"]

/-- Model of `validateListId` (validation.js:296-313): rejects a falsy or
whitespace-only identifier, lowercases and trims, and rejects anything
outside `validListIds`.  This function exists in the repository but is
not called by `ThingsClient.showList` or by any show tool handler. -/
def validateListId (listId : String) : Except String String :=
  if jsTrim listId == "" then .error "List ID is required"
  else
    let cleanListId := jsToLower (jsTrim listId)
    if validListIds.contains cleanListId then .ok cleanListId
    else .error ("Invalid list ID. Must be one of: " ++ joinCommaSp validListIds)

/-- Model of `validateBatchItems` (validation.js:270-285): rejects an
empty items array and an array longer than `maxItems`.  This function
exists in the repository but is not called by any batch tool handler. -/
def validateBatchItems (items : List α) (operationType : String)
    (maxItems : Nat) : Except String (List α) :=
  if items.isEmpty then .error (operationType ++ " requires at least one item")
  else if items.length > maxItems then
    .error (operationType ++ " supports a maximum of " ++ toString maxItems ++
      " items at once. Please split your request into smaller batches.")
  else .ok items

/-- The `maxItems` declared by the `batch_add_todos` input schema
(batch-tools.js:37); declarative metadata only, not checked by the
handler. -/
def batchAddTodosMaxItems : Nat := 20

/-- The `maxItems` declared by the `batch_complete_todos` input schema
(batch-tools.js:175); declarative metadata only, not checked by the
handler. -/
def batchCompleteTodosMaxItems : Nat := 50

/-- One element of the `todos` argument of the `batch_add_todos` tool
(batch-tools.js:30-73). -/
structure BatchTodoItem where
  title : String
  notes : Option String := none
  when : Option String := none
  deadline : Option String := none
  tags : Option String := none
  list : Option String := none
deriving DecidableEq, Repr

/-- The cleaned `todoData` the `batch_add_todos` handler builds for one
item (batch-tools.js:116-125): trimmed title, `notes`/`tags`/`list` only
when truthy after trimming, `when`/`deadline` when truthy. -/
def cleanBatchTodo (t : BatchTodoItem) : TodoData :=
  { title := jsTrim t.title
    notes := match t.notes with
      | some s => if jsTrim s == "" then none else some (jsTrim s)
      | none => none
    when := match t.when with
      | some s => if s == "" then none else some s
      | none => none
    deadline := match t.deadline with
      | some s => if s == "" then none else some s
      | none => none
    tags := match t.tags with
      | some s => if jsTrim s == "" then none else some (jsTrim s)
      | none => none
    list := match t.list with
      | some s => if jsTrim s == "" then none else some (jsTrim s)
      | none => none }

/-- The per-item record pushed onto `results` by a batch handler: a `✅`
success line or a `❌` failure line, keyed here by the title/id it
reports. -/
inductive ItemOutcome where
  | success (title : String)
  | failure (title : String)
deriving DecidableEq, Repr

/-- Whether an outcome record is a success line. -/
def ItemOutcome.isSuccess : ItemOutcome → Bool
  | .success _ => true
  | .failure _ => false

/-- The loop body of the `batch_add_todos` handler for one item
(batch-tools.js:106-147): an empty or whitespace-only title throws into
the per-item `catch`, producing a failure record; otherwise the cleaned
data is passed to `addTodo`, whose own title check passes (the trimmed
title is non-empty), and the dispatch — a fire-and-forget OS open call
modeled as accepted — yields a success record.  Either way the loop
continues with the next item. -/
def processTodoItem (t : BatchTodoItem) : ItemOutcome :=
  if jsTrim t.title == "" then .failure t.title
  else .success (cleanBatchTodo t).title

/-- Model of the `batch_add_todos` handler (batch-tools.js:84-160):
availability check, non-empty-array check, credential check, then one
outcome record per item in order with aggregate success/failure counts.
No cap on the array length is checked.  Result is
`(records, successCount, failureCount)`. -/
def batchAddTodos (available : Bool) (envToken : Option String)
    (todos : List BatchTodoItem) :
    Except String (List ItemOutcome × Nat × Nat) :=
  if !available then
    .error "Things app is not available. Make sure you're running on macOS and Things is installed."
  else if todos.isEmpty then
    .error "Todos array is required and must contain at least one item"
  else if !(jsTruthy envToken) then
    .error "THINGS_AUTHENTICATION_TOKEN is required for batch add operations. Please set this environment variable."
  else
    let outcomes := todos.map processTodoItem
    .ok (outcomes, outcomes.countP (fun o => o.isSuccess),
         outcomes.countP (fun o => !o.isSuccess))

/-- The loop body of the `batch_complete_todos` handler for one id
(batch-tools.js:217-250): an empty trimmed id throws into the per-item
`catch`; otherwise `completeTodo` runs with the trimmed id and the
dispatch (modeled as accepted) yields a success record. -/
def processCompleteItem (id : String) : ItemOutcome :=
  if jsTrim id == "" then .failure id
  else .success (jsTrim id)

/-- Model of the `batch_complete_todos` handler (batch-tools.js:195-263):
same shape as `batchAddTodos`, again with no cap check on the array
length. -/
def batchCompleteTodos (available : Bool) (envToken : Option String)
    (ids : List String) :
    Except String (List ItemOutcome × Nat × Nat) :=
  if !available then
    .error "Things app is not available. Make sure you're running on macOS and Things is installed."
  else if ids.isEmpty then
    .error "IDs array is required and must contain at least one item"
  else if !(jsTruthy envToken) then
    .error "THINGS_AUTHENTICATION_TOKEN is required for batch completion operations. Please set this environment variable."
  else
    let outcomes := ids.map processCompleteItem
    .ok (outcomes, outcomes.countP (fun o => o.isSuccess),
         outcomes.countP (fun o => !o.isSuccess))

/-- The key portion of a rendered query part: the text before the first
`=`. -/
def partKey (q : String) : String :=
  String.mk (q.data.takeWhile (fun c => !(c == '=')))

/-- Collapse an explicitly supplied empty string to an absent field. -/
def stripEmpty : Option String → Option String
  | some s => if s == "" then none else some s
  | none => none

/-- The todo input with every empty-string optional field replaced by an
absent one. -/
def normTodoData (d : TodoData) : TodoData :=
  { title := d.title, notes := stripEmpty d.notes, when := stripEmpty d.when,
    deadline := stripEmpty d.deadline, tags := stripEmpty d.tags,
    checklist := stripEmpty d.checklist, list := stripEmpty d.list }

/-- The project input with every empty-string optional string field
replaced by an absent one (the `todos` array field is untouched). -/
def normProjectData (p : ProjectData) : ProjectData :=
  { title := p.title, notes := stripEmpty p.notes, when := stripEmpty p.when,
    deadline := stripEmpty p.deadline, tags := stripEmpty p.tags,
    area := stripEmpty p.area, todos := p.todos }

/-- A creation input whose every optional field is the empty string. -/
def allEmptyTodo : TodoData :=
  { title := "Buy milk", notes := some "", when := some "",
    deadline := some "", tags := some "", checklist := some "",
    list := some "" }

/-- A project creation input with an explicitly empty notes field. -/
def emptyNotesProject : ProjectData :=
  { title := "P", notes := some "" }

/-- The spec's example project input for the container-creation
scenario. -/
def redesignProject : ProjectData :=
  { title := "Website Redesign",
    todos := some ["Create wireframes", "Design mockups"] }

theorem encodeChars_append (l₁ l₂ : List Char) :
    encodeChars (l₁ ++ l₂) = encodeChars l₁ ++ encodeChars l₂ := by
  induction l₁ with
  | nil =>
      show encodeChars l₂ = "" ++ encodeChars l₂
      rw [String.empty_append]
  | cons c cs ih =>
      show encodeChar c ++ encodeChars (cs ++ l₂)
          = (encodeChar c ++ encodeChars cs) ++ encodeChars l₂
      rw [ih, String.append_assoc]

theorem encodeURIComponent_append (a b : String) :
    encodeURIComponent (a ++ b)
      = encodeURIComponent a ++ encodeURIComponent b := by
  unfold encodeURIComponent
  rw [String.data_append, encodeChars_append]

theorem encodeURIComponent_space_split (pre post : String) :
    encodeURIComponent (pre ++ " " ++ post)
      = encodeURIComponent pre ++ "%20" ++ encodeURIComponent post := by
  rw [encodeURIComponent_append, encodeURIComponent_append]
  rfl

theorem char_toNat_lt (c : Char) : c.toNat < 1114112 := by
  have h := c.valid
  rcases h with h | ⟨_, h2⟩
  · exact Nat.lt_trans h (by norm_num)
  · exact h2

theorem utf8Bytes_lt (c : Char) : ∀ b ∈ utf8Bytes c, b < 256 := by
  intro b hb
  have hc := char_toNat_lt c
  simp only [utf8Bytes] at hb
  split at hb
  · simp only [List.mem_singleton] at hb
    omega
  · split at hb
    · simp only [List.mem_cons, List.mem_singleton, List.not_mem_nil, or_false] at hb
      rcases hb with rfl | rfl <;> omega
    · split at hb
      · simp only [List.mem_cons, List.mem_singleton, List.not_mem_nil, or_false] at hb
        rcases hb with rfl | rfl | rfl <;> omega
      · simp only [List.mem_cons, List.mem_singleton, List.not_mem_nil, or_false] at hb
        rcases hb with rfl | rfl | rfl | rfl <;> omega

theorem hexDigitU_ne_plus (n : Nat) (h : n < 16) : hexDigitU n ≠ '+' := by
  interval_cases n <;> decide

theorem percentByte_no_plus (b : Nat) (hb : b < 256) :
    '+' ∉ (percentByte b).data := by
  have h1 : b / 16 < 16 := by omega
  have h2 : b % 16 < 16 := by omega
  have hdata : (percentByte b).data
      = ['%', hexDigitU (b / 16), hexDigitU (b % 16)] := by
    unfold percentByte
    rw [String.data_append]
    rfl
  rw [hdata]
  intro hmem
  simp only [List.mem_cons, List.not_mem_nil, or_false] at hmem
  rcases hmem with h | h | h
  · exact absurd h (by decide)
  · exact hexDigitU_ne_plus _ h1 h.symm
  · exact hexDigitU_ne_plus _ h2 h.symm

theorem concatStr_no_plus (l : List String)
    (h : ∀ s ∈ l, '+' ∉ s.data) : '+' ∉ (concatStr l).data := by
  induction l with
  | nil => intro hmem; exact absurd hmem (by decide)
  | cons s rest ih =>
      show '+' ∉ (s ++ concatStr rest).data
      rw [String.data_append]
      intro hmem
      rcases List.mem_append.mp hmem with hmem | hmem
      · exact h s (List.mem_cons_self s rest) hmem
      · exact ih (fun x hx => h x (List.mem_cons_of_mem s hx)) hmem

theorem encodeChar_no_plus (c : Char) : '+' ∉ (encodeChar c).data := by
  unfold encodeChar
  split
  · rename_i hres
    show '+' ∉ [c]
    simp only [List.mem_singleton]
    intro h
    rw [← h] at hres
    exact absurd hres (by decide)
  · refine concatStr_no_plus _ ?_
    intro s hs
    rcases List.mem_map.mp hs with ⟨b, hb, rfl⟩
    exact percentByte_no_plus b (utf8Bytes_lt c b hb)

theorem encodeChars_no_plus (l : List Char) : '+' ∉ (encodeChars l).data := by
  induction l with
  | nil => intro hmem; exact absurd hmem (by decide)
  | cons c cs ih =>
      show '+' ∉ (encodeChar c ++ encodeChars cs).data
      rw [String.data_append]
      intro hmem
      rcases List.mem_append.mp hmem with hmem | hmem
      · exact encodeChar_no_plus c hmem
      · exact ih hmem

theorem encodeURIComponent_no_plus (s : String) :
    '+' ∉ (encodeURIComponent s).data :=
  encodeChars_no_plus s.data

theorem queryParts_no_plus (tok : Option String) (cmd : String)
    (params : List (String × JValue)) :
    ∀ x ∈ queryParts tok cmd params, '+' ∉ x.data := by
  intro x hx
  rcases List.mem_append.mp hx with hx | hx
  · match tok with
    | none => cases hx
    | some t =>
        simp only [authParts] at hx
        by_cases hcond : (!(t == "") && !(cmd == "show")) = true
        · rw [if_pos hcond] at hx
          cases hx with
          | tail _ h => cases h
          | head =>
              rw [String.data_append]
              intro hmem
              rcases List.mem_append.mp hmem with h | h
              · exact absurd h (by decide)
              · exact encodeURIComponent_no_plus t h
        · rw [if_neg hcond] at hx
          cases hx
  · rcases List.mem_filterMap.mp hx with ⟨⟨k, v⟩, _, hpart⟩
    match v with
    | .vundef => cases hpart
    | .vnull => cases hpart
    | .vstr s =>
        rcases Option.some.inj hpart with rfl
        rw [String.data_append, String.data_append]
        intro hmem
        rcases List.mem_append.mp hmem with h | h
        · rcases List.mem_append.mp h with h | h
          · exact encodeURIComponent_no_plus k h
          · exact absurd h (by decide)
        · exact encodeURIComponent_no_plus s h
    | .vbool b =>
        rcases Option.some.inj hpart with rfl
        rw [String.data_append, String.data_append]
        intro hmem
        rcases List.mem_append.mp hmem with h | h
        · rcases List.mem_append.mp h with h | h
          · exact encodeURIComponent_no_plus k h
          · exact absurd h (by decide)
        · exact encodeURIComponent_no_plus (cond b "true" "false") h

theorem joinAmp_no_plus (l : List String)
    (h : ∀ x ∈ l, '+' ∉ x.data) : '+' ∉ (joinAmp l).data := by
  induction l with
  | nil => exact fun hmem => absurd hmem (by decide)
  | cons p rest ih =>
      cases rest with
      | nil => exact h p (List.mem_cons_self p [])
      | cons q rest' =>
          show '+' ∉ ((p ++ "&") ++ joinAmp (q :: rest')).data
          rw [String.data_append, String.data_append]
          intro hmem
          rcases List.mem_append.mp hmem with hm | hm
          · rcases List.mem_append.mp hm with hm | hm
            · exact h p (List.mem_cons_self p (q :: rest')) hm
            · exact absurd hm (by decide)
          · exact ih (fun x hx => h x (List.mem_cons_of_mem p hx)) hm

theorem buildUrl_no_plus (tok : Option String) (cmd : String)
    (params : List (String × JValue)) (hcmd : '+' ∉ cmd.data) :
    '+' ∉ (buildUrl tok cmd params).data := by
  unfold buildUrl renderQuery
  rw [String.data_append, String.data_append]
  intro hmem
  rcases List.mem_append.mp hmem with hm | hm
  · rcases List.mem_append.mp hm with hm | hm
    · exact absurd hm (by decide)
    · exact hcmd hm
  · split at hm
    · exact absurd hm (by decide)
    · rw [String.data_append] at hm
      rcases List.mem_append.mp hm with hm | hm
      · exact absurd hm (by decide)
      · exact joinAmp_no_plus _ (queryParts_no_plus tok cmd params) hm

theorem safeCommand_no_plus (cmd : String) (hcmd : SafeCommand cmd) :
    '+' ∉ cmd.data := by
  intro hmem
  have h := hcmd '+' hmem
  exact absurd h (by decide)

theorem joinAmp_mem_split (x : String) (l : List String) (h : x ∈ l) :
    ∃ u v, (joinAmp l).data = u ++ x.data ++ v := by
  induction l with
  | nil => cases h
  | cons p rest ih =>
      rcases List.mem_cons.mp h with rfl | hmem
      · cases rest with
        | nil =>
            refine ⟨[], [], ?_⟩
            show (joinAmp [x]).data = ([] ++ x.data) ++ []
            rw [List.nil_append, List.append_nil]
            rfl
        | cons q rest' =>
            refine ⟨[], '&' :: (joinAmp (q :: rest')).data, ?_⟩
            show ((x ++ "&") ++ joinAmp (q :: rest')).data = _
            rw [String.data_append, String.data_append]
            simp
      · cases rest with
        | nil => cases hmem
        | cons q rest' =>
            rcases ih hmem with ⟨u, v, hu⟩
            refine ⟨p.data ++ '&' :: u, v, ?_⟩
            show ((p ++ "&") ++ joinAmp (q :: rest')).data = _
            rw [String.data_append, String.data_append, hu]
            simp

theorem buildUrl_contains_part (tok : Option String) (cmd : String)
    (params : List (String × JValue)) (x : String)
    (hx : x ∈ queryParts tok cmd params) :
    ∃ u v, (buildUrl tok cmd params).data = u ++ x.data ++ v := by
  have hne : (queryParts tok cmd params).isEmpty = false := by
    cases hq : queryParts tok cmd params with
    | nil => rw [hq] at hx; cases hx
    | cons a l => rfl
  rcases joinAmp_mem_split x _ hx with ⟨u, v, hu⟩
  refine ⟨("things:///" ++ cmd ++ "?").data ++ u, v, ?_⟩
  unfold buildUrl renderQuery
  rw [hne]
  simp only [Bool.false_eq_true, if_false, String.data_append, hu]
  simp [List.append_assoc]

/-- C1: in every URL built by `buildUrl`, a space in a parameter value is
encoded as `%20` at each space position (the URL contains the encoded
value with `%20` standing between the encodings of the text before and
after each space), and the URL never contains a literal `+` — in
particular none that did not exist in the input value (the encoder maps
an input `+` to `%2B`). -/
theorem buildUrl_space_encoding (tok : Option String) (cmd : String)
    (hcmd : SafeCommand cmd) (params : List (String × JValue))
    (k s pre post : String) (hmem : (k, JValue.vstr s) ∈ params)
    (hs : s = pre ++ " " ++ post) :
    (∃ u v, (buildUrl tok cmd params).data
      = u ++ (encodeURIComponent pre ++ "%20" ++ encodeURIComponent post).data ++ v)
    ∧ '+' ∉ (buildUrl tok cmd params).data := by
  constructor
  · have hpart : (encodeURIComponent k ++ "=" ++ encodeURIComponent s)
        ∈ queryParts tok cmd params := by
      refine List.mem_append.mpr (Or.inr ?_)
      exact List.mem_filterMap.mpr ⟨(k, JValue.vstr s), hmem, rfl⟩
    rcases buildUrl_contains_part tok cmd params _ hpart with ⟨u, v, hu⟩
    refine ⟨u ++ (encodeURIComponent k ++ "=").data, v, ?_⟩
    rw [hu, hs, encodeURIComponent_space_split]
    rw [String.data_append, String.data_append]
    simp [List.append_assoc]
  · exact buildUrl_no_plus tok cmd params (safeCommand_no_plus cmd hcmd)

/-- C2: when an authentication token is configured, the URL built for any
command other than `show` carries `auth-token` as its first query
parameter (the query part list starts with it), and the URL built for the
`show` command is identical to the one built with no token configured —
it never carries the injected credential. -/
theorem buildUrl_auth_injection (tok : String) (htok : tok ≠ "")
    (cmd : String) (hcmd : cmd ≠ "show")
    (params : List (String × JValue)) :
    queryParts (some tok) cmd params
      = ("auth-token=" ++ encodeURIComponent tok) :: paramParts params
    ∧ buildUrl (some tok) cmd params
      = "things:///" ++ cmd ++ "?"
        ++ joinAmp (("auth-token=" ++ encodeURIComponent tok) :: paramParts params)
    ∧ buildUrl (some tok) "show" params = buildUrl none "show" params := by
  have hq : queryParts (some tok) cmd params
      = ("auth-token=" ++ encodeURIComponent tok) :: paramParts params := by
    unfold queryParts
    simp only [authParts]
    rw [if_pos]
    · rfl
    · simp [htok, hcmd]
  refine ⟨hq, ?_, ?_⟩
  · unfold buildUrl renderQuery
    rw [hq]
    simp [String.append_assoc]
  · unfold buildUrl
    have hshow : queryParts (some tok) "show" params
        = queryParts none "show" params := by
      unfold queryParts
      simp [authParts]
    rw [hshow]

/-- Closed witness for C2: token `tok`, command `add`, a one-entry
mapping. -/
theorem buildUrl_auth_injection_witness :
    (queryParts (some "tok") "add" [("title", JValue.vstr "A")]
      = ("auth-token=" ++ encodeURIComponent "tok")
          :: paramParts [("title", JValue.vstr "A")])
    ∧ buildUrl (some "tok") "add" [("title", JValue.vstr "A")]
      = "things:///" ++ "add" ++ "?"
        ++ joinAmp (("auth-token=" ++ encodeURIComponent "tok")
              :: paramParts [("title", JValue.vstr "A")])
    ∧ buildUrl (some "tok") "show" [("title", JValue.vstr "A")]
      = buildUrl none "show" [("title", JValue.vstr "A")] :=
  buildUrl_auth_injection "tok" (by decide) "add" (by decide)
    [("title", JValue.vstr "A")]

/-- C4 (code bug): the repository's own `validateListId` raises on an
identifier outside the fixed set, but `ThingsClient.showList` never calls
it — for the out-of-set identifier `invalid-list-name` the validator
errors while `showList` still builds (and would dispatch) the URL
`things:///show?id=invalid-list-name`. -/
theorem showList_no_validation :
    validateListId "invalid-list-name"
      = .error "Invalid list ID. Must be one of: today, inbox, upcoming, anytime, someday, projects, areas, logbook"
    ∧ showListUrl (some "token") "invalid-list-name"
      = "things:///show?id=invalid-list-name" := ⟨rfl, rfl⟩

/-- C7 (code bug): the input schemas declare the caps (creation 20,
completion 50, creation strictly lower) and the repository's
`validateBatchItems` would reject an oversized batch, but the
`batch_add_todos` handler checks only non-emptiness: a 21-item batch is
processed in full instead of being rejected, while an empty batch is
rejected by both handlers before any per-item dispatch. -/
theorem batch_caps_not_enforced :
    batchAddTodosMaxItems = 20
    ∧ batchCompleteTodosMaxItems = 50
    ∧ batchAddTodosMaxItems < batchCompleteTodosMaxItems
    ∧ validateBatchItems (List.replicate 21 ({ title := "Task" } : BatchTodoItem))
        "Batch add" batchAddTodosMaxItems
      = .error "Batch add supports a maximum of 20 items at once. Please split your request into smaller batches."
    ∧ batchAddTodos true (some "t") (List.replicate 21 { title := "Task" })
      = .ok (List.replicate 21 (ItemOutcome.success "Task"), 21, 0)
    ∧ batchAddTodos true (some "t") []
      = .error "Todos array is required and must contain at least one item"
    ∧ batchCompleteTodos true (some "t") []
      = .error "IDs array is required and must contain at least one item" :=
  ⟨rfl, rfl, by decide, rfl, rfl, rfl, rfl⟩

/-- C8 counterexample: `buildUrl` with an empty command does not signal a
build error at any parameter mapping — here it returns a normal URL. -/
theorem buildUrl_empty_command_counterexample :
    buildUrlE (some "token") "" [("title", JValue.vstr "Test")]
      = .ok "things:///?auth-token=token&title=Test" := rfl

/-- C8 amended: for an empty command `buildUrl` raises nothing; the URL
constructor resolves the empty command to the base `things:///` and the
query string is appended to it. -/
theorem buildUrl_empty_command_amended (tok : Option String)
    (params : List (String × JValue)) :
    buildUrlE tok "" params
      = .ok ("things:///" ++ renderQuery (queryParts tok "" params)) := rfl

/-- C10: `buildUrl` is deterministic and effect-free — it is a pure
function of the configured token, the command and the parameter mapping,
so two calls with equal inputs return identical URL strings. -/
theorem buildUrl_deterministic (tok tok' : Option String)
    (cmd cmd' : String) (params params' : List (String × JValue))
    (h1 : tok = tok') (h2 : cmd = cmd') (h3 : params = params') :
    buildUrl tok cmd params = buildUrl tok' cmd' params' := by
  subst h1
  subst h2
  subst h3
  rfl

/-- Closed witness for C10 at a concrete repeated call. -/
theorem buildUrl_deterministic_witness :
    buildUrl (some "token") "add" [("title", JValue.vstr "A")]
      = buildUrl (some "token") "add" [("title", JValue.vstr "A")] :=
  buildUrl_deterministic (some "token") (some "token") "add" "add"
    [("title", JValue.vstr "A")] [("title", JValue.vstr "A")] rfl rfl rfl

/-- Closed witness for C1 at the spec's own example: the title
`"Temp Add From MCP"` on the `add` command. -/
theorem buildUrl_space_encoding_witness :
    (∃ u v, (buildUrl (some "token") "add"
        [("title", JValue.vstr "Temp Add From MCP")]).data
      = u ++ (encodeURIComponent "Temp" ++ "%20"
              ++ encodeURIComponent "Add From MCP").data ++ v)
    ∧ '+' ∉ (buildUrl (some "token") "add"
        [("title", JValue.vstr "Temp Add From MCP")]).data :=
  buildUrl_space_encoding (some "token") "add" (by unfold SafeCommand; decide)
    [("title", JValue.vstr "Temp Add From MCP")]
    "title" "Temp Add From MCP" "Temp" "Add From MCP"
    (List.mem_singleton.mpr rfl) rfl

theorem processTodoItem_success (t : BatchTodoItem)
    (h : jsTrim t.title ≠ "") :
    processTodoItem t = .success (jsTrim t.title) := by
  unfold processTodoItem
  rw [if_neg (by simp [h])]
  rfl

theorem processTodoItem_failure (t : BatchTodoItem)
    (h : jsTrim t.title = "") :
    processTodoItem t = .failure t.title := by
  unfold processTodoItem
  rw [if_pos (by simp [h])]

/-- C5: in a creation batch where exactly one item has an empty
(whitespace-only) trimmed title and every other item succeeds, the
handler reports one failure positioned exactly where the bad item was,
one success per remaining item (counts N-1 and 1), and every item after
the failing one is still processed — the batch is never aborted. -/
theorem batch_add_isolates_failure (pre post : List BatchTodoItem)
    (bad : BatchTodoItem) (hbad : jsTrim bad.title = "")
    (hpre : ∀ x ∈ pre, jsTrim x.title ≠ "")
    (hpost : ∀ x ∈ post, jsTrim x.title ≠ "")
    (envTok : Option String) (htok : jsTruthy envTok = true) :
    batchAddTodos true envTok (pre ++ bad :: post)
      = .ok (pre.map processTodoItem
              ++ ItemOutcome.failure bad.title :: post.map processTodoItem,
             pre.length + post.length, 1)
    ∧ (∀ o ∈ pre.map processTodoItem, o.isSuccess = true)
    ∧ (∀ o ∈ post.map processTodoItem, o.isSuccess = true)
    ∧ (pre.map processTodoItem).length = pre.length
    ∧ (post.map processTodoItem).length = post.length := by
  have hpreS : ∀ o ∈ pre.map processTodoItem, o.isSuccess = true := by
    intro o ho
    rcases List.mem_map.mp ho with ⟨x, hx, rfl⟩
    rw [processTodoItem_success x (hpre x hx)]
    rfl
  have hpostS : ∀ o ∈ post.map processTodoItem, o.isSuccess = true := by
    intro o ho
    rcases List.mem_map.mp ho with ⟨x, hx, rfl⟩
    rw [processTodoItem_success x (hpost x hx)]
    rfl
  refine ⟨?_, hpreS, hpostS, List.length_map _ _, List.length_map _ _⟩
  unfold batchAddTodos
  rw [if_neg (by decide)]
  rw [if_neg (by cases pre <;> simp)]
  rw [if_neg (by simp [htok])]
  rw [List.map_append, List.map_cons, processTodoItem_failure bad hbad]
  have hcS : ((pre.map processTodoItem)
      ++ ItemOutcome.failure bad.title :: post.map processTodoItem).countP
        (fun o => o.isSuccess) = pre.length + post.length := by
    rw [List.countP_append, List.countP_cons]
    rw [List.countP_eq_length.mpr hpreS, List.countP_eq_length.mpr hpostS]
    simp [ItemOutcome.isSuccess, List.length_map]
  have hcF : ((pre.map processTodoItem)
      ++ ItemOutcome.failure bad.title :: post.map processTodoItem).countP
        (fun o => !o.isSuccess) = 1 := by
    rw [List.countP_append, List.countP_cons]
    have hz : ∀ (l : List ItemOutcome), (∀ o ∈ l, o.isSuccess = true) →
        l.countP (fun o => !o.isSuccess) = 0 := by
      intro l hl
      rw [List.countP_eq_zero]
      intro o ho
      simp [hl o ho]
    rw [hz _ hpreS, hz _ hpostS]
    simp [ItemOutcome.isSuccess]
  simp only [hcS, hcF]

/-- Closed witness for C5: a three-item batch whose middle item has a
whitespace-only title. -/
theorem batch_add_isolates_failure_witness :
    batchAddTodos true (some "t")
        ([({ title := "Buy milk" } : BatchTodoItem)]
          ++ ({ title := "   " } : BatchTodoItem)
            :: [({ title := "Call Bob" } : BatchTodoItem)])
      = .ok ([({ title := "Buy milk" } : BatchTodoItem)].map processTodoItem
              ++ ItemOutcome.failure ({ title := "   " } : BatchTodoItem).title
                :: [({ title := "Call Bob" } : BatchTodoItem)].map processTodoItem,
             [({ title := "Buy milk" } : BatchTodoItem)].length
               + [({ title := "Call Bob" } : BatchTodoItem)].length, 1)
    ∧ (∀ o ∈ [({ title := "Buy milk" } : BatchTodoItem)].map processTodoItem,
        o.isSuccess = true)
    ∧ (∀ o ∈ [({ title := "Call Bob" } : BatchTodoItem)].map processTodoItem,
        o.isSuccess = true)
    ∧ ([({ title := "Buy milk" } : BatchTodoItem)].map processTodoItem).length
        = [({ title := "Buy milk" } : BatchTodoItem)].length
    ∧ ([({ title := "Call Bob" } : BatchTodoItem)].map processTodoItem).length
        = [({ title := "Call Bob" } : BatchTodoItem)].length :=
  batch_add_isolates_failure
    [{ title := "Buy milk" }] [{ title := "Call Bob" }] { title := "   " }
    (by decide) (by decide) (by decide) (some "t") (by decide)

theorem truthyField_stripEmpty (k : String) (v : Option String) :
    truthyField k (stripEmpty v) = truthyField k v := by
  cases v with
  | none => rfl
  | some s =>
      by_cases hs : (s == "") = true
      · simp [stripEmpty, truthyField, hs]
      · simp [stripEmpty, truthyField, hs]

/-- C9: for the creation operations an optional field supplied as the
empty string is omitted from the outbound mapping exactly as if it were
absent (normalising empty-string optionals to absent ones changes
nothing), and a creation call with only a title yields exactly the
`title` entry — whose query parts are exactly the credential part
followed by `title=`. -/
theorem creation_empty_optionals_omitted (d : TodoData) (p : ProjectData)
    (t tok : String) (htitle : t ≠ "") (htok : tok ≠ "") :
    addTodoParams d = addTodoParams (normTodoData d)
    ∧ addProjectParams p = addProjectParams (normProjectData p)
    ∧ addTodoParams { title := t } = .ok [("title", JValue.vstr t)]
    ∧ queryParts (some tok) "add" [("title", JValue.vstr t)]
      = ["auth-token=" ++ encodeURIComponent tok,
         "title=" ++ encodeURIComponent t] := by
  refine ⟨?_, ?_, ?_, ?_⟩
  · simp [addTodoParams, normTodoData, truthyField_stripEmpty]
  · simp [addProjectParams, normProjectData, truthyField_stripEmpty]
  · unfold addTodoParams
    rw [if_neg (by simp [htitle])]
    rfl
  · unfold queryParts
    simp only [authParts]
    rw [if_pos (by simp [htok])]
    show _ ++ [encodeURIComponent "title" ++ "=" ++ encodeURIComponent t] = _
    rw [show encodeURIComponent "title" ++ "=" = "title=" from rfl]
    rfl

/-- Closed witness for C9: an input whose every optional field is the
empty string collapses to the same mapping as the all-absent input. -/
theorem creation_empty_optionals_omitted_witness :
    addTodoParams allEmptyTodo = addTodoParams (normTodoData allEmptyTodo)
    ∧ addProjectParams emptyNotesProject
      = addProjectParams (normProjectData emptyNotesProject)
    ∧ addTodoParams { title := "Buy milk" }
      = .ok [("title", JValue.vstr "Buy milk")]
    ∧ queryParts (some "tok") "add" [("title", JValue.vstr "Buy milk")]
      = ["auth-token=" ++ encodeURIComponent "tok",
         "title=" ++ encodeURIComponent "Buy milk"] :=
  creation_empty_optionals_omitted allEmptyTodo emptyNotesProject
    "Buy milk" "tok" (by decide) (by decide)

/-- C6: `addProject` serialises a supplied todos array into a single
newline-joined `todos` parameter; at the spec's example the produced
mapping and URL carry `title` and `todos` values that percent-decode to
`Website Redesign` and `Create wireframes\nDesign mockups`. -/
theorem addProject_todos_serialization (p : ProjectData) (l : List String)
    (hp : p.title ≠ "") (hl : p.todos = some l) :
    (∃ ps, addProjectParams p = .ok ps
      ∧ ("todos", JValue.vstr (joinNl l)) ∈ ps)
    ∧ addProjectParams redesignProject
      = .ok [("title", JValue.vstr "Website Redesign"),
             ("todos", JValue.vstr "Create wireframes\nDesign mockups")]
    ∧ buildUrl (some "token") "add-project"
        [("title", JValue.vstr "Website Redesign"),
         ("todos", JValue.vstr "Create wireframes\nDesign mockups")]
      = "things:///add-project?auth-token=token&title=Website%20Redesign&todos=Create%20wireframes%0ADesign%20mockups"
    ∧ percentDecode (encodeURIComponent "Create wireframes\nDesign mockups")
      = "Create wireframes\nDesign mockups"
    ∧ percentDecode (encodeURIComponent "Website Redesign")
      = "Website Redesign" := by
  refine ⟨?_, rfl, rfl, rfl, rfl⟩
  unfold addProjectParams
  rw [if_neg (by simp [hp])]
  refine ⟨_, rfl, ?_⟩
  rw [hl]
  simp

/-- Closed witness for C6 at the spec's example project. -/
theorem addProject_todos_serialization_witness :
    (∃ ps, addProjectParams redesignProject = .ok ps
      ∧ ("todos", JValue.vstr (joinNl ["Create wireframes", "Design mockups"]))
          ∈ ps)
    ∧ addProjectParams redesignProject
      = .ok [("title", JValue.vstr "Website Redesign"),
             ("todos", JValue.vstr "Create wireframes\nDesign mockups")]
    ∧ buildUrl (some "token") "add-project"
        [("title", JValue.vstr "Website Redesign"),
         ("todos", JValue.vstr "Create wireframes\nDesign mockups")]
      = "things:///add-project?auth-token=token&title=Website%20Redesign&todos=Create%20wireframes%0ADesign%20mockups"
    ∧ percentDecode (encodeURIComponent "Create wireframes\nDesign mockups")
      = "Create wireframes\nDesign mockups"
    ∧ percentDecode (encodeURIComponent "Website Redesign")
      = "Website Redesign" :=
  addProject_todos_serialization redesignProject
    ["Create wireframes", "Design mockups"] (by decide) rfl

theorem mem_definedField (k : String) (v : Option String)
    (kv : String × JValue) (h : kv ∈ definedField k v) :
    kv.1 = k ∧ ∃ s, kv.2 = JValue.vstr s ∧ v = some s := by
  cases v with
  | none => cases h
  | some s =>
      rcases List.mem_singleton.mp h with rfl
      exact ⟨rfl, s, rfl, rfl⟩

theorem takeWhile_append_stop (p : Char → Bool) (l₁ l₂ : List Char)
    (c : Char) (h : ∀ x ∈ l₁, p x = true) (hc : p c = false) :
    (l₁ ++ c :: l₂).takeWhile p = l₁ := by
  induction l₁ with
  | nil => simp [List.takeWhile_cons, hc]
  | cons a l ih =>
      have ha : p a = true := h a (List.mem_cons_self a l)
      rw [List.cons_append, List.takeWhile_cons, if_pos ha,
        ih (fun x hx => h x (List.mem_cons_of_mem a hx))]

theorem partKey_of_concat (a b : String)
    (ha : ∀ c ∈ a.data, (!(c == '=')) = true) :
    partKey (a ++ "=" ++ b) = a := by
  unfold partKey
  have hdata : (a ++ "=" ++ b).data = a.data ++ '=' :: b.data := by
    rw [String.data_append, String.data_append]
    simp
  rw [hdata, takeWhile_append_stop _ _ _ _ ha (by decide)]

theorem updateTodoParams_ok (u : UpdateData) (hid : u.id ≠ "") :
    updateTodoParams u
      = .ok ([("id", JValue.vstr u.id)]
          ++ definedField "title" u.title ++ definedField "notes" u.notes
          ++ definedField "when" u.when ++ definedField "deadline" u.deadline
          ++ definedField "tags" u.tags ++ definedField "checklist" u.checklist
          ++ definedField "list" u.list) := by
  unfold updateTodoParams
  rw [if_neg (by simp [hid])]

theorem updateTodoParams_entry (u : UpdateData) (hn : u.notes = none)
    (kv : String × JValue)
    (hkv : kv ∈ [("id", JValue.vstr u.id)]
        ++ definedField "title" u.title ++ definedField "notes" u.notes
        ++ definedField "when" u.when ++ definedField "deadline" u.deadline
        ++ definedField "tags" u.tags ++ definedField "checklist" u.checklist
        ++ definedField "list" u.list) :
    kv.1 ∈ (["id", "title", "when", "deadline", "tags", "checklist",
        "list"] : List String) ∧ ∃ s, kv.2 = JValue.vstr s := by
  rw [hn] at hkv
  simp only [List.mem_append] at hkv
  rcases hkv with ((((((h | h) | h) | h) | h) | h) | h) | h
  · rcases List.mem_singleton.mp h with rfl
    refine ⟨?_, u.id, rfl⟩
    show ("id" : String) ∈ ["id", "title", "when", "deadline", "tags", "checklist", "list"]
    decide
  · rcases mem_definedField _ _ _ h with ⟨h1, s, h2, _⟩
    exact ⟨by rw [h1]; decide, s, h2⟩
  · rcases mem_definedField _ _ _ h with ⟨_, _, _, hsome⟩
    exact Option.noConfusion hsome
  · rcases mem_definedField _ _ _ h with ⟨h1, s, h2, _⟩
    exact ⟨by rw [h1]; decide, s, h2⟩
  · rcases mem_definedField _ _ _ h with ⟨h1, s, h2, _⟩
    exact ⟨by rw [h1]; decide, s, h2⟩
  · rcases mem_definedField _ _ _ h with ⟨h1, s, h2, _⟩
    exact ⟨by rw [h1]; decide, s, h2⟩
  · rcases mem_definedField _ _ _ h with ⟨h1, s, h2, _⟩
    exact ⟨by rw [h1]; decide, s, h2⟩
  · rcases mem_definedField _ _ _ h with ⟨h1, s, h2, _⟩
    exact ⟨by rw [h1]; decide, s, h2⟩

/-- C3: for an update input with a valid id, `notes` supplied as the
empty string is kept in the outbound mapping and the URL query carries
the part `notes=` (empty value), while `notes` left undefined contributes
no `notes` entry to the mapping and no query part whose key is
`notes`. -/
theorem updateTodo_clear_vs_omit (u : UpdateData) (hid : u.id ≠ "")
    (tok : Option String) :
    (u.notes = some "" →
      ∃ ps, updateTodoParams u = .ok ps
        ∧ ("notes", JValue.vstr "") ∈ ps
        ∧ "notes=" ∈ queryParts tok "update" ps)
    ∧ (u.notes = none →
      ∃ ps, updateTodoParams u = .ok ps
        ∧ (∀ v, ("notes", v) ∉ ps)
        ∧ ∀ q ∈ queryParts tok "update" ps, partKey q ≠ "notes") := by
  constructor
  · intro hn
    refine ⟨_, updateTodoParams_ok u hid, ?_, ?_⟩
    · rw [hn]
      simp [definedField]
    · refine List.mem_append.mpr (Or.inr ?_)
      refine List.mem_filterMap.mpr ⟨("notes", JValue.vstr ""), ?_, rfl⟩
      rw [hn]
      simp [definedField]
  · intro hn
    refine ⟨_, updateTodoParams_ok u hid, ?_, ?_⟩
    · intro v hv
      refine absurd (updateTodoParams_entry u hn _ hv).1 ?_
      show ¬ ("notes" : String) ∈ ["id", "title", "when", "deadline", "tags", "checklist", "list"]
      decide
    · intro q hq
      rcases List.mem_append.mp hq with hq | hq
      · match tok with
        | none => cases hq
        | some t =>
            simp only [authParts] at hq
            by_cases hcond : (!(t == "") && !("update" == "show")) = true
            · rw [if_pos hcond] at hq
              cases hq with
              | tail _ h => cases h
              | head =>
                  rw [show ("auth-token=" : String) ++ encodeURIComponent t
                      = "auth-token" ++ "=" ++ encodeURIComponent t from rfl]
                  rw [partKey_of_concat _ _ (by decide)]
                  decide
            · rw [if_neg hcond] at hq
              cases hq
      · rcases List.mem_filterMap.mp hq with ⟨⟨k2, v2⟩, hkv, hpart⟩
        rcases updateTodoParams_entry u hn _ hkv with ⟨hk2, s, hv2⟩
        rw [hv2] at hpart
        rcases Option.some.inj hpart with rfl
        fin_cases hk2 <;> dsimp only <;>
          rw [partKey_of_concat _ _ (by decide)] <;> decide

/-- Closed witness for C3: an update carrying `notes: ""` and the same
update with `notes` absent. -/
theorem updateTodo_clear_vs_omit_witness :
    (({ id := "ABC", notes := some "" } : UpdateData).notes = some "" →
      ∃ ps, updateTodoParams { id := "ABC", notes := some "" } = .ok ps
        ∧ ("notes", JValue.vstr "") ∈ ps
        ∧ "notes=" ∈ queryParts (some "tok") "update" ps)
    ∧ (({ id := "ABC", notes := some "" } : UpdateData).notes = none →
      ∃ ps, updateTodoParams { id := "ABC", notes := some "" } = .ok ps
        ∧ (∀ v, ("notes", v) ∉ ps)
        ∧ ∀ q ∈ queryParts (some "tok") "update" ps, partKey q ≠ "notes") :=
  updateTodo_clear_vs_omit { id := "ABC", notes := some "" }
    (by decide) (some "tok")

end ThingsMCP
